import Mathlib

/-!
Verification of the Command Authorization & Credit Ledger Engine backend
(Express + Prisma). The durable store is modelled as an explicit `Db` state;
each HTTP handler becomes a pure function `Db → inputs → Db × response`.
JavaScript `RegExp` semantics are abstracted as an oracle
`test : String → String → Option Bool` (`none` models a pattern whose
compilation throws) except where a claim needs concrete semantics, for which
the anchored-literal fragment of JS regexes is modelled exactly
(`testAnchoredLiteral`). Prisma `$transaction` blocks are modelled as
all-or-nothing state updates; a unique-constraint violation inside a
transaction leaves the state unchanged.
-/

/-- Rule action enum, from migration `CREATE TYPE "RuleAction"`. -/
inductive RuleAction where
  | AUTO_REJECT
  | AUTO_ACCEPT
deriving DecidableEq, Repr

/-- Approval status enum, from migration `CREATE TYPE "ApprovalStatus"`. -/
inductive ApprovalStatus where
  | pending
  | approved
  | rejected
deriving DecidableEq, Repr

/-- The string Prisma serializes an `ApprovalStatus` to (used in error messages). -/
def statusText : ApprovalStatus → String
  | .pending => "pending"
  | .approved => "approved"
  | .rejected => "rejected"

/-- `User` row (fields relevant to the core; `credits` is an SQL INTEGER, so `Int`). -/
structure User where
  id : Nat
  username : String
  role : String
  credits : Int
deriving DecidableEq, Repr

/-- `RegexRule` row, from migration: unique `pattern`, `action`, optional
`exampleMatch`, `createdAt` timestamp (modelled as a `Nat` tick). -/
structure RegexRule where
  id : Nat
  pattern : String
  action : RuleAction
  exampleMatch : Option String
  createdAt : Nat
deriving DecidableEq, Repr

/-- `ApprovalRequest` row, from migration: status defaults to `pending`,
`reviewedAt` / `reviewedBy` nullable. (The migrations define no vote-count
column and no `ApprovalRequestApprover` table.) -/
structure ApprovalRequest where
  id : Nat
  userId : Nat
  commandText : String
  status : ApprovalStatus
  reviewedAt : Option Nat
  reviewedBy : Option Nat
  createdAt : Nat
deriving DecidableEq, Repr

/-- `AuditTrail` row, from migration `CREATE TABLE "AuditTrail"`. -/
structure AuditTrail where
  id : Nat
  userId : Nat
  commandText : String
  creditsDeducted : Int
  creditsBefore : Int
  creditsAfter : Int
  createdAt : Nat
deriving DecidableEq, Repr

/-- The persistent store. `nextId` is a monotone counter supplying fresh row
ids and `createdAt` ticks. -/
structure Db where
  users : List User
  rules : List RegexRule
  requests : List ApprovalRequest
  audits : List AuditTrail
  nextId : Nat
deriving DecidableEq, Repr

/-- `prisma.user.findUnique (where id)`. -/
def findUser (db : Db) (uid : Nat) : Option User :=
  db.users.find? (fun u => u.id == uid)

/-- Current stored balance of a user (the row's `credits` column). -/
def storedCredits (db : Db) (uid : Nat) : Option Int :=
  (findUser db uid).map (fun u => u.credits)

/-! ### The anchored-literal fragment of JavaScript regular expressions -/

/-- The character class of `approval-requests.ts` line 896:
`/[.*+?^${}()|[\]\\]/g` — the regex-special characters the approve handler
escapes. -/
def regexSpecials : List Char :=
  ['.', '*', '+', '?', '^', '$', '\x7b', '\x7d', '(', ')', '|', '[', ']', '\\']

/-- One step of `commandText.replace(/[.*+?^${}()|[\]\\]/g, "\\$&")`:
a special character becomes backslash-then-itself, anything else is kept. -/
def escapeChar (c : Char) : List Char :=
  if c ∈ regexSpecials then ['\\', c] else [c]

/-- `escapedCommand` of `approval-requests.ts` line 896: the global
replacement applied character by character. -/
def escapedCommand (s : String) : String :=
  String.mk (s.data.foldr (fun c acc => escapeChar c ++ acc) [])

/-- `pattern` of `approval-requests.ts` line 897. -/
def approvalRulePattern (c : String) : String :=
  "^" ++ escapedCommand c ++ "$"

/-- Parse a regex body consisting solely of literal atoms: `\c` where `c` is
one of the special characters (a JS identity escape denoting the literal
character `c`), or a plain non-special character (denoting itself). Returns
the denoted character sequence, or `none` when the body uses any construct
outside this fragment. Modelled from JS `RegExp` semantics restricted to
this fragment. -/
def parseLiteralBody : List Char → Option (List Char)
  | [] => some []
  | c :: rest =>
    if c = '\\' then
      match rest with
      | [] => none
      | d :: rest' =>
        if d ∈ regexSpecials then (parseLiteralBody rest').map (fun l => d :: l)
        else none
    else if c ∈ regexSpecials then none
    else (parseLiteralBody rest).map (fun l => c :: l)

/-- Model of JS `new RegExp(p).test(t)` (no flags) for patterns of the shape
`^` ++ literal body ++ `$`: without the `m` flag, `^` matches only the start
of the input and `$` only its very end, so such a pattern matches `t` exactly
when `t` equals the body's literal text. Returns `none` for a pattern outside
the modelled fragment (the oracle assigns it no result). -/
def testAnchoredLiteral (p : String) (t : String) : Option Bool :=
  match p.data with
  | '^' :: rest =>
    match rest.getLast? with
    | some '$' =>
      match parseLiteralBody rest.dropLast with
      | some lit => some (decide (t.data = lit))
      | none => none
    | _ => none
  | _ => none

/-! ### Rule matching (`POST /command`, commands.ts lines 55-103) -/

/-- The matching loop of commands.ts lines 61-73: scan the rules in the order
given; `test rule.pattern cmd = some true` models a successful
`new RegExp(rule.pattern).test(command_text)`, `some false` a compiled
non-match, and `none` a compilation throw, which the `catch` skips with a
warning and `continue`. First match wins. -/
def findMatchedRule (test : String → String → Option Bool) :
    List RegexRule → String → Option RegexRule
  | [], _ => none
  | r :: rest, cmd =>
    match test r.pattern cmd with
    | some true => some r
    | _ => findMatchedRule test rest cmd

/-- `prisma.regexRule.findMany (orderBy createdAt asc)` (commands.ts
lines 55-59): the stored rules sorted by ascending creation time. -/
def rulesByCreatedAtAsc (rs : List RegexRule) : List RegexRule :=
  rs.insertionSort (fun a b => a.createdAt ≤ b.createdAt)

/-- `evaluate`: the rule lookup performed by `POST /command`. -/
def evaluateRules (test : String → String → Option Bool) (db : Db)
    (cmd : String) : Option RegexRule :=
  findMatchedRule test (rulesByCreatedAtAsc db.rules) cmd

/-- Responses of `POST /command`, commands.ts lines 49-142. -/
inductive CommandResp where
  | missingCommand
  | noMatch (cmd : String)
  | autoRejected (cmd : String) (pat : String)
  | insufficientCredits (balance : Int)
  | executed (cmd : String) (newBalance : Int) (deducted : Int) (pat : String)
deriving DecidableEq, Repr

/-- The `res.status(...)` code attached to each `POST /command` response. -/
def CommandResp.httpStatus : CommandResp → Nat
  | .missingCommand => 400
  | .noMatch _ => 400
  | .autoRejected _ _ => 403
  | .insufficientCredits _ => 403
  | .executed _ _ _ _ => 200

/-- `POST /command` (commands.ts lines 42-150). `u` is the user row read by
`authenticateApiKey` (commands.ts line 32) — a snapshot taken before the
handler body runs. `body = none` models a missing or non-string
`command_text`. The credit check (line 97) reads `u.credits` from that
snapshot; the `$transaction` (lines 108-129) decrements the stored row and
appends the audit entry atomically, recording `creditsBefore`/`creditsAfter`
computed from the snapshot. -/
def postCommand (test : String → String → Option Bool) (db : Db) (u : User)
    (body : Option String) : Db × CommandResp :=
  match body with
  | none => (db, .missingCommand)
  | some cmd =>
    match evaluateRules test db cmd with
    | none => (db, .noMatch cmd)
    | some r =>
      if r.action = .AUTO_REJECT then
        (db, .autoRejected cmd r.pattern)
      else if u.credits < 10 then
        (db, .insufficientCredits u.credits)
      else
        let creditsBefore := u.credits
        let db' : Db :=
          { db with
            users := db.users.map (fun v =>
              if v.id = u.id then { v with credits := v.credits - 10 } else v),
            audits := db.audits ++
              [{ id := db.nextId, userId := u.id, commandText := cmd,
                 creditsDeducted := 10, creditsBefore := creditsBefore,
                 creditsAfter := creditsBefore - 10, createdAt := db.nextId }],
            nextId := db.nextId + 1 }
        (db', .executed cmd ((storedCredits db' u.id).getD 0) 10 r.pattern)

/-- One realizable interleaving of two concurrent `POST /command` requests by
the same user: both `authenticateApiKey` reads (which populate `req.user`)
complete before either handler's `$transaction` commits, so each handler
checks and records credits from its own pre-transaction snapshot. `u1`, `u2`
are those two snapshots. -/
def interleavedCommands (test : String → String → Option Bool) (db : Db)
    (u1 u2 : User) (cmd : String) : Db × CommandResp × CommandResp :=
  let p1 := postCommand test db u1 (some cmd)
  let p2 := postCommand test p1.1 u2 (some cmd)
  (p2.1, p1.2, p2.2)

/-! ### Approval workflow (`approval-requests.ts` lines 875-981) -/

/-- Responses of `POST /approval-requests/:requestId/approve`,
approval-requests.ts lines 884-937. -/
inductive ApproveResp where
  | notFound
  | alreadyProcessed (st : ApprovalStatus)
  | approvedWithRule (requestId : Nat) (pat : String)
  | conflictDuplicateRule
deriving DecidableEq, Repr

/-- The `res.status(...)` code of each approve response: 404 unknown id, 400
`Request is already ...`, 200 success, 409 when the caught error message
contains `Unique constraint` (lines 885, 891, 917, 929). -/
def ApproveResp.httpStatus : ApproveResp → Nat
  | .notFound => 404
  | .alreadyProcessed _ => 400
  | .approvedWithRule _ _ => 200
  | .conflictDuplicateRule => 409

/-- The error message attached to an approve failure. -/
def ApproveResp.errorText : ApproveResp → Option String
  | .notFound => some "Approval request not found"
  | .alreadyProcessed st => some ("Request is already " ++ statusText st)
  | .approvedWithRule _ _ => none
  | .conflictDuplicateRule => some "A regex rule for this command already exists"

/-- `POST /approval-requests/:requestId/approve` (approval-requests.ts lines
875-938): look up the request (404 if absent), reject non-pending requests
with the 400 `Request is already ...` response, otherwise run the
`$transaction` of lines 899-915 — set the request `approved` (recording
reviewer and time) and create the escaped-pattern `AUTO_ACCEPT` rule. The
rule insert hits the `RegexRule.pattern` unique constraint exactly when an
equal pattern string is already stored; Prisma then aborts the whole
transaction (neither write committed) and the catch at lines 928-932 turns
the `Unique constraint` error into the 409 response. -/
def postApprove (db : Db) (approverId : Nat) (requestId : Nat) :
    Db × ApproveResp :=
  match db.requests.find? (fun r => r.id == requestId) with
  | none => (db, .notFound)
  | some req =>
    if req.status ≠ .pending then
      (db, .alreadyProcessed req.status)
    else
      let pat := approvalRulePattern req.commandText
      if db.rules.any (fun r => r.pattern == pat) then
        (db, .conflictDuplicateRule)
      else
        let db' : Db :=
          { db with
            requests := db.requests.map (fun r =>
              if r.id = requestId then
                { r with status := .approved, reviewedAt := some db.nextId,
                         reviewedBy := some approverId }
              else r),
            rules := db.rules ++
              [{ id := db.nextId, pattern := pat, action := .AUTO_ACCEPT,
                 exampleMatch := some req.commandText, createdAt := db.nextId }],
            nextId := db.nextId + 1 }
        (db', .approvedWithRule requestId pat)

/-- Responses of `POST /approval-requests/:requestId/reject`,
approval-requests.ts lines 949-973. -/
inductive RejectResp where
  | notFound
  | alreadyProcessed (st : ApprovalStatus)
  | rejectedOk (requestId : Nat)
deriving DecidableEq, Repr

/-- The `res.status(...)` code of each reject response (lines 950, 956, 970). -/
def RejectResp.httpStatus : RejectResp → Nat
  | .notFound => 404
  | .alreadyProcessed _ => 400
  | .rejectedOk _ => 200

/-- The error message attached to a reject failure. -/
def RejectResp.errorText : RejectResp → Option String
  | .notFound => some "Approval request not found"
  | .alreadyProcessed st => some ("Request is already " ++ statusText st)
  | .rejectedOk _ => none

/-- `POST /approval-requests/:requestId/reject` (approval-requests.ts lines
940-981): 404 if absent, 400 `Request is already ...` if not pending,
otherwise a single update to terminal `rejected`. -/
def postReject (db : Db) (approverId : Nat) (requestId : Nat) :
    Db × RejectResp :=
  match db.requests.find? (fun r => r.id == requestId) with
  | none => (db, .notFound)
  | some req =>
    if req.status ≠ .pending then
      (db, .alreadyProcessed req.status)
    else
      let db' : Db :=
        { db with
          requests := db.requests.map (fun r =>
            if r.id = requestId then
              { r with status := .rejected, reviewedAt := some db.nextId,
                       reviewedBy := some approverId }
            else r),
          nextId := db.nextId + 1 }
      (db', .rejectedOk requestId)

/-! ### Rule administration (`regex-rules.ts` lines 59-124) -/

/-- Responses of `POST /add-regex-rule`, regex-rules.ts lines 63-116. -/
inductive AddRuleResp where
  | missingPattern
  | missingAction
  | invalidAction
  | invalidPattern
  | patternExists
  | created (id : Nat) (pat : String) (act : RuleAction)
deriving DecidableEq, Repr

/-- The `res.status(...)` code of each add-rule response. -/
def AddRuleResp.httpStatus : AddRuleResp → Nat
  | .missingPattern => 400
  | .missingAction => 400
  | .invalidAction => 400
  | .invalidPattern => 400
  | .patternExists => 409
  | .created _ _ _ => 201

/-- `POST /add-regex-rule` (regex-rules.ts lines 59-124), with compilation
validity `isValidRegex` (the `try new RegExp` probe of lines 50-57) as an
oracle. Checks run in source order: pattern present, action present, action
one of the two enum strings, pattern compiles, pattern not already stored
(`findUnique` on the unique `pattern` column — case-sensitive exact string
equality); only then is the rule created. -/
def addRegexRule (isValidRegex : String → Bool) (db : Db)
    (pattern? action? exampleMatch? : Option String) : Db × AddRuleResp :=
  match pattern? with
  | none => (db, .missingPattern)
  | some pat =>
    match action? with
    | none => (db, .missingAction)
    | some act =>
      if act ≠ "AUTO_REJECT" ∧ act ≠ "AUTO_ACCEPT" then
        (db, .invalidAction)
      else if !isValidRegex pat then
        (db, .invalidPattern)
      else if db.rules.any (fun r => r.pattern == pat) then
        (db, .patternExists)
      else
        let action := if act = "AUTO_REJECT" then RuleAction.AUTO_REJECT
                      else RuleAction.AUTO_ACCEPT
        let db' : Db :=
          { db with
            rules := db.rules ++
              [{ id := db.nextId, pattern := pat, action := action,
                 exampleMatch := exampleMatch?, createdAt := db.nextId }],
            nextId := db.nextId + 1 }
        (db', .created db.nextId pat action)

/-! ### Audit queries (commands.ts lines 183-204, regex-rules.ts 417-446) -/

/-- `orderBy createdAt desc` on audit entries. -/
def auditsByCreatedAtDesc (es : List AuditTrail) : List AuditTrail :=
  es.insertionSort (fun a b => b.createdAt ≤ a.createdAt)

/-- `GET /command-history` (commands.ts lines 187-191): the caller's audit
entries, newest first, `take: 100`. -/
def commandHistory (db : Db) (uid : Nat) : List AuditTrail :=
  ((auditsByCreatedAtDesc (db.audits.filter (fun e => e.userId == uid))).take 100)

/-- `GET /audit-logs` (regex-rules.ts lines 419-433): all audit entries,
newest first, `take: 500`, each with the owning user row joined in
(`include user`). -/
def auditLogs (db : Db) : List (AuditTrail × Option User) :=
  ((auditsByCreatedAtDesc db.audits).take 500).map
    (fun e => (e, findUser db e.userId))

/-! ### Sorting instances -/

instance : DecidableRel (fun (a b : RegexRule) => a.createdAt ≤ b.createdAt) :=
  fun a b => Nat.decLe a.createdAt b.createdAt

instance : IsTotal RegexRule (fun a b => a.createdAt ≤ b.createdAt) :=
  ⟨fun a b => Nat.le_total a.createdAt b.createdAt⟩

instance : IsTrans RegexRule (fun a b => a.createdAt ≤ b.createdAt) :=
  ⟨fun _ _ _ => Nat.le_trans⟩

instance : DecidableRel (fun (a b : AuditTrail) => b.createdAt ≤ a.createdAt) :=
  fun a b => Nat.decLe b.createdAt a.createdAt

instance : IsTotal AuditTrail (fun a b => b.createdAt ≤ a.createdAt) :=
  ⟨fun a b => (Nat.le_total b.createdAt a.createdAt)⟩

instance : IsTrans AuditTrail (fun a b => b.createdAt ≤ a.createdAt) :=
  ⟨fun _ _ _ h h' => Nat.le_trans h' h⟩

/-! ### Lemmas about the escaped-command pattern -/

theorem parseLiteralBody_cons_esc (d : Char) (rest : List Char)
    (hd : d ∈ regexSpecials) :
    parseLiteralBody ('\\' :: d :: rest)
      = (parseLiteralBody rest).map (fun l => d :: l) := by
  rw [parseLiteralBody.eq_def]
  simp [hd]

theorem parseLiteralBody_cons_plain (c : Char) (rest : List Char)
    (hc : c ∉ regexSpecials) (hne : c ≠ '\\') :
    parseLiteralBody (c :: rest)
      = (parseLiteralBody rest).map (fun l => c :: l) := by
  rw [parseLiteralBody.eq_def]
  simp [hc, hne]

theorem parseLiteralBody_escape (l : List Char) :
    parseLiteralBody (l.foldr (fun c acc => escapeChar c ++ acc) []) = some l := by
  induction l with
  | nil => rfl
  | cons c l ih =>
    by_cases hc : c ∈ regexSpecials
    · have h1 : escapeChar c = ['\\', c] := by simp [escapeChar, hc]
      simp only [List.foldr_cons, h1, List.cons_append, List.singleton_append]
      rw [parseLiteralBody_cons_esc c _ hc]
      simp [ih]
    · have hne : c ≠ '\\' := by
        intro h
        exact hc (h ▸ (by decide : '\\' ∈ regexSpecials))
      have h1 : escapeChar c = [c] := by simp [escapeChar, hc]
      simp only [List.foldr_cons, h1, List.singleton_append]
      rw [parseLiteralBody_cons_plain c _ hc hne]
      simp [ih]

theorem approvalRulePattern_data (c : String) :
    (approvalRulePattern c).data = '^' :: ((escapedCommand c).data ++ ['$']) := by
  have h1 : ("^" : String).data = ['^'] := rfl
  have h2 : ("$" : String).data = ['$'] := rfl
  simp [approvalRulePattern, String.data_append, h1, h2]

/-- The pattern the approve handler builds from command text `c` compiles in
the anchored-literal fragment and matches a string `t` exactly when `t = c`. -/
theorem testAnchoredLiteral_approvalRulePattern (c t : String) :
    testAnchoredLiteral (approvalRulePattern c) t = some (decide (t = c)) := by
  have hdata := approvalRulePattern_data c
  have hesc : (escapedCommand c).data
      = c.data.foldr (fun ch acc => escapeChar ch ++ acc) [] := rfl
  unfold testAnchoredLiteral
  rw [hdata]
  simp only [List.getLast?_concat, List.dropLast_concat, hesc,
    parseLiteralBody_escape]
  congr 1
  have : (t = c) ↔ (t.data = c.data) := ⟨fun h => h ▸ rfl, fun h => String.ext h⟩
  simp [this]

/-! ### Lemmas about the matching scan -/

theorem findMatchedRule_some (test : String → String → Option Bool)
    (l : List RegexRule) (cmd : String) (r : RegexRule)
    (h : findMatchedRule test l cmd = some r) :
    r ∈ l ∧ test r.pattern cmd = some true := by
  induction l with
  | nil => simp [findMatchedRule] at h
  | cons a t ih =>
    rw [findMatchedRule] at h
    cases ht : test a.pattern cmd with
    | none =>
      rw [ht] at h
      rcases ih h with ⟨hm, hmt⟩
      exact ⟨List.mem_cons_of_mem a hm, hmt⟩
    | some b =>
      cases b with
      | true =>
        rw [ht] at h
        cases h
        exact ⟨List.mem_cons_self _ _, ht⟩
      | false =>
        rw [ht] at h
        rcases ih h with ⟨hm, hmt⟩
        exact ⟨List.mem_cons_of_mem a hm, hmt⟩

theorem findMatchedRule_eq_none_iff (test : String → String → Option Bool)
    (l : List RegexRule) (cmd : String) :
    findMatchedRule test l cmd = none
      ↔ ∀ r ∈ l, test r.pattern cmd ≠ some true := by
  induction l with
  | nil => simp [findMatchedRule]
  | cons a t ih =>
    rw [findMatchedRule]
    cases ht : test a.pattern cmd with
    | none => simp [ht, ih]
    | some b =>
      cases b with
      | true => simp [ht]
      | false => simp [ht, ih]

theorem findMatchedRule_earliest (test : String → String → Option Bool)
    (l : List RegexRule) (cmd : String) (r : RegexRule)
    (hsorted : l.Pairwise (fun a b => a.createdAt ≤ b.createdAt))
    (h : findMatchedRule test l cmd = some r) :
    ∀ r' ∈ l, test r'.pattern cmd = some true → r.createdAt ≤ r'.createdAt := by
  induction l with
  | nil => simp [findMatchedRule] at h
  | cons a t ih =>
    rw [findMatchedRule] at h
    rcases List.pairwise_cons.mp hsorted with ⟨ha, ht'⟩
    cases ht : test a.pattern cmd with
    | none =>
      rw [ht] at h
      intro r' hr' hmatch
      rcases List.mem_cons.mp hr' with rfl | hmem
      · rw [hmatch] at ht
        cases ht
      · exact ih ht' h r' hmem hmatch
    | some b =>
      cases b with
      | true =>
        rw [ht] at h
        cases h
        intro r' hr' _
        rcases List.mem_cons.mp hr' with rfl | hmem
        · exact Nat.le_refl _
        · exact ha r' hmem
      | false =>
        rw [ht] at h
        intro r' hr' hmatch
        rcases List.mem_cons.mp hr' with rfl | hmem
        · rw [hmatch] at ht
          cases ht
        · exact ih ht' h r' hmem hmatch

theorem findMatchedRule_skip (test : String → String → Option Bool)
    (cmd : String) (bad : RegexRule) (hbad : test bad.pattern cmd = none) :
    ∀ l1 l2 : List RegexRule,
      findMatchedRule test (l1 ++ bad :: l2) cmd
        = findMatchedRule test (l1 ++ l2) cmd := by
  intro l1 l2
  induction l1 with
  | nil =>
    simp only [List.nil_append, findMatchedRule, hbad]
  | cons a t ih =>
    simp only [List.cons_append, findMatchedRule]
    cases ht : test a.pattern cmd with
    | none => simpa [ht] using ih
    | some b => cases b <;> simp [ht, ih]

theorem rulesByCreatedAtAsc_sorted (rs : List RegexRule) :
    (rulesByCreatedAtAsc rs).Pairwise (fun a b => a.createdAt ≤ b.createdAt) :=
  List.sorted_insertionSort (fun (a b : RegexRule) => a.createdAt ≤ b.createdAt) rs

theorem rulesByCreatedAtAsc_mem (rs : List RegexRule) (r : RegexRule) :
    r ∈ rulesByCreatedAtAsc rs ↔ r ∈ rs :=
  List.mem_insertionSort (fun (a b : RegexRule) => a.createdAt ≤ b.createdAt)

/-! ### Lemmas about the audit queries -/

theorem auditsByCreatedAtDesc_sorted (es : List AuditTrail) :
    (auditsByCreatedAtDesc es).Pairwise (fun a b => b.createdAt ≤ a.createdAt) :=
  List.sorted_insertionSort (fun (a b : AuditTrail) => b.createdAt ≤ a.createdAt) es

theorem auditsByCreatedAtDesc_mem (es : List AuditTrail) (e : AuditTrail) :
    e ∈ auditsByCreatedAtDesc es ↔ e ∈ es :=
  List.mem_insertionSort (fun (a b : AuditTrail) => b.createdAt ≤ a.createdAt)

/-- In a `take n` of a descending sort, every element that was left out is no
newer than every element that was kept. -/
theorem take_desc_boundary (es : List AuditTrail) (n : Nat) (e f : AuditTrail)
    (he : e ∈ (auditsByCreatedAtDesc es).take n) (hf : f ∈ es)
    (hfn : f ∉ (auditsByCreatedAtDesc es).take n) :
    f.createdAt ≤ e.createdAt := by
  have hs : (auditsByCreatedAtDesc es).Pairwise
      (fun a b => b.createdAt ≤ a.createdAt) := auditsByCreatedAtDesc_sorted es
  have hsplit : (auditsByCreatedAtDesc es).take n
      ++ (auditsByCreatedAtDesc es).drop n = auditsByCreatedAtDesc es :=
    List.take_append_drop n _
  have hfs : f ∈ auditsByCreatedAtDesc es := (auditsByCreatedAtDesc_mem es f).mpr hf
  rw [← hsplit] at hfs hs
  rcases List.mem_append.mp hfs with hin | hdrop
  · exact absurd hin hfn
  · exact (List.pairwise_append.mp hs).2.2 e he f hdrop

/-! ### Concrete fixtures for witnesses and demonstrations -/

/-- An approver account. -/
def demoApprover : User :=
  { id := 42, username := "carol", role := "approver", credits := 100 }

/-- A freshly submitted (pending, zero reviews) approval request. -/
def demoRequest : ApprovalRequest :=
  { id := 1, userId := 7, commandText := "deploy app", status := .pending,
    reviewedAt := none, reviewedBy := none, createdAt := 0 }

/-- Store holding one pending approval request and no rules. -/
def dbPend : Db :=
  { users := [demoApprover], rules := [], requests := [demoRequest],
    audits := [], nextId := 10 }

/-- An approval request that already reached the terminal `approved` state. -/
def approvedRequest : ApprovalRequest :=
  { id := 2, userId := 7, commandText := "ship it", status := .approved,
    reviewedAt := some 5, reviewedBy := some 42, createdAt := 0 }

/-- Store holding one terminally approved request. -/
def dbTerminal : Db :=
  { users := [demoApprover], rules := [], requests := [approvedRequest],
    audits := [], nextId := 20 }

/-- A member with exactly 15 credits. -/
def u15 : User := { id := 7, username := "bob", role := "member", credits := 15 }

/-- An `AUTO_ACCEPT` rule whose pattern `^ls$` matches exactly `ls`. -/
def ruleLs : RegexRule :=
  { id := 1, pattern := "^ls$", action := .AUTO_ACCEPT, exampleMatch := none,
    createdAt := 1 }

/-- Store for the concurrent-charge scenario: balance 15, one accepting rule. -/
def dbCharge : Db :=
  { users := [u15], rules := [ruleLs], requests := [], audits := [],
    nextId := 20 }

/-! ### Claim C1 -/

/-- C1: the claim says an approve call increments a vote count and only a
second approval (threshold 2) moves the request to `approved` and creates the
rule, a first approval leaving it `pending` with a running count. The code
has no vote count at all: this theorem evaluates the approve handler on a
fresh pending request and shows that the very first approve call already
transitions it to `approved` and creates the rule. -/
theorem c1_single_approve_is_terminal :
    ((postApprove dbPend 42 1).1.requests.map (fun r => r.status)
        = [ApprovalStatus.approved])
    ∧ (postApprove dbPend 42 1).1.rules.length = 1
    ∧ (postApprove dbPend 42 1).2
        = .approvedWithRule 1 (approvalRulePattern "deploy app") := by
  decide

/-! ### Claim C2 -/

/-- C2: the claim says a second approve call by the same approver fails with
a duplicate-vote `Conflict` leaving the vote count unchanged. The code
records no votes (no `ApprovalRequestApprover` table exists in the
migrations): the first call already terminally approves the request, so the
same approver's second call is refused only by the terminal-status check,
with HTTP 400 (`Request is already approved`), not a duplicate-vote 409. -/
theorem c2_second_approve_gets_400_not_conflict :
    (postApprove (postApprove dbPend 42 1).1 42 1).2
        = .alreadyProcessed .approved
    ∧ ((postApprove (postApprove dbPend 42 1).1 42 1).2).httpStatus = 400
    ∧ (postApprove (postApprove dbPend 42 1).1 42 1).1
        = (postApprove dbPend 42 1).1 := by
  decide

/-! ### Claim C3 -/

/-- C3 counterexample: on a terminally `approved` request both approve and
reject respond with HTTP status 400, not the 409-class Conflict the claim
states. -/
theorem c3_counterexample :
    (postApprove dbTerminal 42 2).2.httpStatus = 400
    ∧ (postReject dbTerminal 42 2).2.httpStatus = 400
    ∧ ¬(postApprove dbTerminal 42 2).2.httpStatus = 409
    ∧ ¬(postReject dbTerminal 42 2).2.httpStatus = 409 := by
  decide

/-- C3 (amended): for every approval request whose status is not `pending`,
both approve and reject fail with an HTTP 400 error whose message identifies
the request's current status (`Request is already <status>`), and the store
— hence the request — is left unchanged. -/
theorem c3_terminal_request_rejected_with_400 (db : Db) (aid rid : Nat)
    (req : ApprovalRequest)
    (hfind : db.requests.find? (fun r => r.id == rid) = some req)
    (hterm : req.status ≠ .pending) :
    postApprove db aid rid = (db, .alreadyProcessed req.status)
    ∧ postReject db aid rid = (db, .alreadyProcessed req.status)
    ∧ (ApproveResp.alreadyProcessed req.status).httpStatus = 400
    ∧ (RejectResp.alreadyProcessed req.status).httpStatus = 400
    ∧ (ApproveResp.alreadyProcessed req.status).errorText
        = some ("Request is already " ++ statusText req.status)
    ∧ (RejectResp.alreadyProcessed req.status).errorText
        = some ("Request is already " ++ statusText req.status) := by
  refine ⟨?_, ?_, rfl, rfl, rfl, rfl⟩
  · simp [postApprove, hfind, hterm]
  · simp [postReject, hfind, hterm]

/-- Witness for C3 (amended) at the concrete terminally-approved request. -/
theorem c3_terminal_request_witness :
    postApprove dbTerminal 42 2 = (dbTerminal, .alreadyProcessed .approved)
    ∧ postReject dbTerminal 42 2 = (dbTerminal, .alreadyProcessed .approved)
    ∧ (ApproveResp.alreadyProcessed .approved).httpStatus = 400
    ∧ (RejectResp.alreadyProcessed .approved).httpStatus = 400
    ∧ (ApproveResp.alreadyProcessed .approved).errorText
        = some ("Request is already " ++ statusText .approved)
    ∧ (RejectResp.alreadyProcessed .approved).errorText
        = some ("Request is already " ++ statusText .approved) :=
  c3_terminal_request_rejected_with_400 dbTerminal 42 2 approvedRequest
    (by decide) (by decide)

/-! ### Claim C8 -/

/-- C8: the claim says charging is atomic under concurrency — with balance 15
and two concurrent charges of 10 exactly one succeeds and the balance never
goes negative. The credit check (commands.ts line 97) reads the balance from
the `authenticateApiKey` snapshot taken before the charge transaction, so in
the realizable interleaving where both auth reads precede both transactions,
both requests pass the check and both `$transaction`s commit: both respond
200, the final stored balance is -5, and two audit entries exist, each
internally consistent (`after = before - deducted`) but recording the stale
snapshot. -/
theorem c8_concurrent_charges_both_succeed :
    findUser dbCharge 7 = some u15
    ∧ (interleavedCommands testAnchoredLiteral dbCharge u15 u15 "ls").2.1.httpStatus = 200
    ∧ (interleavedCommands testAnchoredLiteral dbCharge u15 u15 "ls").2.2.httpStatus = 200
    ∧ storedCredits (interleavedCommands testAnchoredLiteral dbCharge u15 u15 "ls").1 7
        = some (-5)
    ∧ (interleavedCommands testAnchoredLiteral dbCharge u15 u15 "ls").1.audits.length = 2
    ∧ ((interleavedCommands testAnchoredLiteral dbCharge u15 u15 "ls").1.audits.all
        (fun a => a.creditsAfter == a.creditsBefore - a.creditsDeducted)) = true := by
  decide

/-! ### Claim C4 -/

/-- C4: for a fixed rule set and command, `evaluate` (a pure function, hence
deterministic) returns the first matching rule of the scan in ascending
creation-time order — so any returned rule matches and has creation time no
later than any other matching rule — returns none exactly when no rule
matches, and a rule whose pattern fails to compile (oracle `none`) is skipped
without affecting the scan's result. -/
theorem c4_evaluate_first_match (test : String → String → Option Bool)
    (db : Db) (cmd : String) :
    (∀ r : RegexRule, evaluateRules test db cmd = some r →
        r ∈ db.rules ∧ test r.pattern cmd = some true
        ∧ ∀ r' ∈ db.rules, test r'.pattern cmd = some true →
            r.createdAt ≤ r'.createdAt)
    ∧ (evaluateRules test db cmd = none
        ↔ ∀ r ∈ db.rules, test r.pattern cmd ≠ some true)
    ∧ (∀ (l1 l2 : List RegexRule) (bad : RegexRule),
        test bad.pattern cmd = none →
        findMatchedRule test (l1 ++ bad :: l2) cmd
          = findMatchedRule test (l1 ++ l2) cmd) := by
  refine ⟨?_, ?_, ?_⟩
  · intro r hr
    rcases findMatchedRule_some test _ cmd r hr with ⟨hm, hmt⟩
    refine ⟨(rulesByCreatedAtAsc_mem db.rules r).mp hm, hmt, ?_⟩
    intro r' hr' hmt'
    exact findMatchedRule_earliest test _ cmd r
      (rulesByCreatedAtAsc_sorted db.rules) hr r'
      ((rulesByCreatedAtAsc_mem db.rules r').mpr hr') hmt'
  · rw [evaluateRules, findMatchedRule_eq_none_iff]
    constructor
    · exact fun h r hr => h r ((rulesByCreatedAtAsc_mem db.rules r).mpr hr)
    · exact fun h r hr => h r ((rulesByCreatedAtAsc_mem db.rules r).mp hr)
  · intro l1 l2 bad hbad
    exact findMatchedRule_skip test cmd bad hbad l1 l2

/-- Oracle used by the C4 witness: the pattern `boom` fails to compile,
every other pattern matches exactly the command `ls`. -/
def demoOracle (p c : String) : Option Bool :=
  if p = "boom" then none else some (decide (c = "ls"))

/-- Earlier-created of two matching rules. -/
def ruleP1 : RegexRule :=
  { id := 11, pattern := "p1", action := .AUTO_ACCEPT, exampleMatch := none,
    createdAt := 1 }

/-- Later-created matching rule. -/
def ruleP2 : RegexRule :=
  { id := 12, pattern := "p2", action := .AUTO_REJECT, exampleMatch := none,
    createdAt := 2 }

/-- A rule whose pattern fails to compile under `demoOracle`. -/
def ruleBoom : RegexRule :=
  { id := 13, pattern := "boom", action := .AUTO_ACCEPT, exampleMatch := none,
    createdAt := 3 }

/-- Store whose rules are stored out of creation order. -/
def dbRules : Db :=
  { users := [], rules := [ruleP2, ruleP1], requests := [], audits := [],
    nextId := 40 }

/-- Witness for C4 at a concrete store where the later-created rule is stored
first: the scan still selects the earliest-created matching rule, and an
uncompilable rule is skipped. -/
theorem c4_evaluate_witness :
    ruleP1 ∈ dbRules.rules ∧ demoOracle ruleP1.pattern "ls" = some true
    ∧ ruleP1.createdAt ≤ ruleP2.createdAt
    ∧ findMatchedRule demoOracle ([ruleP1] ++ ruleBoom :: [ruleP2]) "ls"
        = findMatchedRule demoOracle ([ruleP1] ++ [ruleP2]) "ls" := by
  obtain ⟨h1, h2, h3⟩ :=
    (c4_evaluate_first_match demoOracle dbRules "ls").1 ruleP1 (by decide)
  exact ⟨h1, h2, h3 ruleP2 (by decide) (by decide),
    (c4_evaluate_first_match demoOracle dbRules "ls").2.2 [ruleP1] [ruleP2]
      ruleBoom (by decide)⟩

/-! ### Claim C5 -/

/-- C5: a user whose snapshot balance is below the fixed charge of 10
submitting a command that matches an `AUTO_ACCEPT` rule gets the 403
`InsufficientCredits` response and the store is returned unchanged — no
balance mutation and no audit entry. -/
theorem c5_insufficient_credits_no_mutation
    (test : String → String → Option Bool) (db : Db) (u : User) (cmd : String)
    (r : RegexRule)
    (hmatch : evaluateRules test db cmd = some r)
    (haccept : r.action = .AUTO_ACCEPT)
    (hlow : u.credits < 10) :
    postCommand test db u (some cmd) = (db, .insufficientCredits u.credits)
    ∧ (CommandResp.insufficientCredits u.credits).httpStatus = 403 := by
  refine ⟨?_, rfl⟩
  have hnr : ¬r.action = RuleAction.AUTO_REJECT := by
    rw [haccept]
    decide
  simp [postCommand, hmatch, hnr, hlow]

/-- A member with balance 5 — below the fixed charge of 10. -/
def u5 : User := { id := 7, username := "bob", role := "member", credits := 5 }

/-- Store for the insufficient-credits scenario: balance 5, rule `^ls$`. -/
def dbLow : Db :=
  { users := [u5], rules := [ruleLs], requests := [], audits := [],
    nextId := 50 }

/-- Witness for C5: balance 5, command `ls` matching the `AUTO_ACCEPT` rule
`^ls$` — 403, store unchanged. -/
theorem c5_insufficient_credits_witness :
    postCommand testAnchoredLiteral dbLow u5 (some "ls")
      = (dbLow, .insufficientCredits u5.credits)
    ∧ (CommandResp.insufficientCredits u5.credits).httpStatus = 403 :=
  c5_insufficient_credits_no_mutation testAnchoredLiteral dbLow u5 "ls" ruleLs
    (by decide) (by decide) (by decide)

/-! ### Claim C6 -/

/-- C6: adding a rule whose pattern string is already stored (case-sensitive
exact equality on the unique `pattern` column, regardless of either rule's
action) fails with the 409 `patternExists` response and the store is
unchanged; adding a rule whose pattern does not compile fails with the 400
`invalidPattern` response and the store is unchanged. The duplicate branch
assumes the duplicated pattern compiles (`isValidRegex p = true`), which
holds of every stored pattern: `addRegexRule` itself validates patterns
before storing them, and approve-created patterns are escaped literals. -/
theorem c6_add_rule_duplicate_or_invalid (isValidRegex : String → Bool)
    (db : Db) (p act : String) (ex : Option String)
    (hact : act = "AUTO_REJECT" ∨ act = "AUTO_ACCEPT") :
    ((∃ r ∈ db.rules, r.pattern = p) → isValidRegex p = true →
        addRegexRule isValidRegex db (some p) (some act) ex
          = (db, .patternExists)
        ∧ AddRuleResp.patternExists.httpStatus = 409)
    ∧ (isValidRegex p = false →
        addRegexRule isValidRegex db (some p) (some act) ex
          = (db, .invalidPattern)
        ∧ AddRuleResp.invalidPattern.httpStatus = 400) := by
  have hact' : ¬(act ≠ "AUTO_REJECT" ∧ act ≠ "AUTO_ACCEPT") := by
    rcases hact with h | h <;> simp [h]
  constructor
  · intro hdup hvalid
    have hdup' : db.rules.any (fun r => r.pattern == p) = true := by
      rw [List.any_eq_true]
      rcases hdup with ⟨r, hr, hp⟩
      exact ⟨r, hr, beq_iff_eq.mpr hp⟩
    refine ⟨?_, rfl⟩
    simp [addRegexRule, hact', hvalid, hdup']
  · intro hinvalid
    refine ⟨?_, rfl⟩
    simp [addRegexRule, hact', hinvalid]

/-- Compilation-validity oracle for the C6 witness: only `(` is invalid. -/
def demoValid (s : String) : Bool := !(s == "(")

/-- Witness for C6: duplicating the stored pattern `^ls$` yields 409 with the
store unchanged; the invalid pattern `(` yields 400 with the store
unchanged. -/
theorem c6_add_rule_witness :
    (addRegexRule demoValid dbCharge (some "^ls$") (some "AUTO_ACCEPT") none
        = (dbCharge, .patternExists)
      ∧ AddRuleResp.patternExists.httpStatus = 409)
    ∧ (addRegexRule demoValid dbCharge (some "(") (some "AUTO_ACCEPT") none
        = (dbCharge, .invalidPattern)
      ∧ AddRuleResp.invalidPattern.httpStatus = 400) :=
  ⟨(c6_add_rule_duplicate_or_invalid demoValid dbCharge "^ls$" "AUTO_ACCEPT"
      none (Or.inr rfl)).1 ⟨ruleLs, by decide, rfl⟩ (by decide),
   (c6_add_rule_duplicate_or_invalid demoValid dbCharge "(" "AUTO_ACCEPT"
      none (Or.inr rfl)).2 (by decide)⟩

/-! ### Claim C7 -/

/-- C7: approving a pending request whose escaped pattern is not yet stored
creates exactly one new rule; that rule has action `AUTO_ACCEPT`, its pattern
is the command text with all regex-special characters escaped, it compiles in
the anchored-literal fragment, and it matches a string `t` if and only if `t`
is exactly the original command text. -/
theorem c7_approval_rule_exact (db : Db) (aid rid : Nat)
    (req : ApprovalRequest)
    (hfind : db.requests.find? (fun r => r.id == rid) = some req)
    (hpend : req.status = .pending)
    (hnodup : db.rules.any
        (fun r => r.pattern == approvalRulePattern req.commandText) = false) :
    ∃ rule : RegexRule,
      (postApprove db aid rid).1.rules = db.rules ++ [rule]
      ∧ rule.action = .AUTO_ACCEPT
      ∧ rule.pattern = approvalRulePattern req.commandText
      ∧ (∀ t : String,
          testAnchoredLiteral rule.pattern t = some true ↔ t = req.commandText)
      ∧ (∀ t : String, testAnchoredLiteral rule.pattern t ≠ none) := by
  have hpend' : ¬req.status ≠ ApprovalStatus.pending := by simp [hpend]
  refine ⟨{ id := db.nextId, pattern := approvalRulePattern req.commandText,
            action := .AUTO_ACCEPT, exampleMatch := some req.commandText,
            createdAt := db.nextId }, ?_, rfl, rfl, ?_, ?_⟩
  · simp [postApprove, hfind, hpend', hnodup]
  · intro t
    rw [testAnchoredLiteral_approvalRulePattern]
    simp
  · intro t
    rw [testAnchoredLiteral_approvalRulePattern]
    simp

/-- Witness for C7 at the concrete pending request for `deploy app`. -/
theorem c7_approval_rule_witness :
    ∃ rule : RegexRule,
      (postApprove dbPend 42 1).1.rules = dbPend.rules ++ [rule]
      ∧ rule.action = .AUTO_ACCEPT
      ∧ rule.pattern = approvalRulePattern demoRequest.commandText
      ∧ (∀ t : String,
          testAnchoredLiteral rule.pattern t = some true
            ↔ t = demoRequest.commandText)
      ∧ (∀ t : String, testAnchoredLiteral rule.pattern t ≠ none) :=
  c7_approval_rule_exact dbPend 42 1 demoRequest (by decide) (by decide)
    (by decide)

/-! ### Claim C10 -/

/-- C10: approving a pending request whose escaped command pattern is already
stored as a rule fails with the 409 response, and the transaction rolls back:
the store — the request (still pending) and the rule set — is unchanged. -/
theorem c10_duplicate_pattern_conflict (db : Db) (aid rid : Nat)
    (req : ApprovalRequest)
    (hfind : db.requests.find? (fun r => r.id == rid) = some req)
    (hpend : req.status = .pending)
    (hdup : db.rules.any
        (fun r => r.pattern == approvalRulePattern req.commandText) = true) :
    postApprove db aid rid = (db, .conflictDuplicateRule)
    ∧ ApproveResp.httpStatus .conflictDuplicateRule = 409 := by
  have hpend' : ¬req.status ≠ ApprovalStatus.pending := by simp [hpend]
  refine ⟨?_, rfl⟩
  simp [postApprove, hfind, hpend', hdup]

/-- A pending request whose command text escapes to the stored `^ls$`. -/
def reqLs : ApprovalRequest :=
  { id := 3, userId := 7, commandText := "ls", status := .pending,
    reviewedAt := none, reviewedBy := none, createdAt := 2 }

/-- Store holding both `reqLs` and the colliding rule `^ls$`. -/
def dbDup : Db :=
  { users := [demoApprover], rules := [ruleLs], requests := [reqLs],
    audits := [], nextId := 30 }

/-- Witness for C10: approving the request for `ls` while `^ls$` is already
stored yields 409 and leaves the store unchanged. -/
theorem c10_duplicate_pattern_witness :
    postApprove dbDup 42 3 = (dbDup, .conflictDuplicateRule)
    ∧ ApproveResp.httpStatus .conflictDuplicateRule = 409 :=
  c10_duplicate_pattern_conflict dbDup 42 3 reqLs (by decide) (by decide)
    (by decide)

/-! ### Claim C9 -/

/-- C9: the per-user history returns at most 100 entries, newest first, all
belonging to that user, and they are the most recent ones (any of the user's
entries left out is no newer than any kept); the admin audit-log returns at
most 500 entries, newest first, each paired with the owning user's row
(`include user`), and they are the most recent ones globally. -/
theorem c9_audit_queries (db : Db) (uid : Nat) :
    (commandHistory db uid).length ≤ 100
    ∧ (commandHistory db uid).Pairwise (fun a b => b.createdAt ≤ a.createdAt)
    ∧ (∀ e ∈ commandHistory db uid, e ∈ db.audits ∧ e.userId = uid)
    ∧ (∀ e ∈ commandHistory db uid, ∀ f ∈ db.audits, f.userId = uid →
        f ∉ commandHistory db uid → f.createdAt ≤ e.createdAt)
    ∧ (auditLogs db).length ≤ 500
    ∧ (auditLogs db).Pairwise (fun p q => q.1.createdAt ≤ p.1.createdAt)
    ∧ (∀ p ∈ auditLogs db, p.1 ∈ db.audits ∧ p.2 = findUser db p.1.userId
        ∧ ∀ v : User, p.2 = some v → v.id = p.1.userId)
    ∧ (∀ p ∈ auditLogs db, ∀ f ∈ db.audits,
        f ∉ (auditLogs db).map Prod.fst → f.createdAt ≤ p.1.createdAt) := by
  have hmap : (auditLogs db).map Prod.fst
      = (auditsByCreatedAtDesc db.audits).take 500 := by
    rw [auditLogs, List.map_map]
    have hcomp : (Prod.fst ∘ fun e : AuditTrail => (e, findUser db e.userId))
        = id := rfl
    rw [hcomp, List.map_id]
  refine ⟨List.length_take_le _ _, ?_, ?_, ?_, ?_, ?_, ?_, ?_⟩
  · exact List.Pairwise.sublist (List.take_sublist _ _)
      (auditsByCreatedAtDesc_sorted _)
  · intro e he
    have he' : e ∈ db.audits.filter (fun a => a.userId == uid) :=
      (auditsByCreatedAtDesc_mem _ e).mp
        (List.Sublist.subset (List.take_sublist _ _) he)
    rcases List.mem_filter.mp he' with ⟨hmem, hbeq⟩
    exact ⟨hmem, beq_iff_eq.mp hbeq⟩
  · intro e he f hf hfuid hfn
    exact take_desc_boundary _ 100 e f he
      (List.mem_filter.mpr ⟨hf, beq_iff_eq.mpr hfuid⟩) hfn
  · rw [auditLogs, List.length_map]
    exact List.length_take_le _ _
  · rw [auditLogs]
    refine List.pairwise_map.mpr ?_
    exact List.Pairwise.sublist (List.take_sublist _ _)
      (auditsByCreatedAtDesc_sorted _)
  · intro p hp
    rcases List.mem_map.mp hp with ⟨e, he, rfl⟩
    refine ⟨(auditsByCreatedAtDesc_mem _ e).mp
      (List.Sublist.subset (List.take_sublist _ _) he), rfl, ?_⟩
    intro v hv
    have hv' : db.users.find? (fun u => u.id == e.userId) = some v := hv
    have hp : (v.id == e.userId) = true :=
      @List.find?_some User (fun u => u.id == e.userId) v db.users hv'
    exact beq_iff_eq.mp hp
  · intro p hp f hf hfn
    rcases List.mem_map.mp hp with ⟨e, he, rfl⟩
    rw [hmap] at hfn
    exact take_desc_boundary db.audits 500 e f he hf hfn

/-- The i-th audit entry of the C9 witness store (created at tick i). -/
def histAudit (i : Nat) : AuditTrail :=
  { id := i, userId := 7, commandText := "ls", creditsDeducted := 10,
    creditsBefore := 10, creditsAfter := 0, createdAt := i }

/-- Store with 101 audit entries for user 7, so the history query must drop
the oldest one. -/
def dbHist : Db :=
  { users := [u15], rules := [], requests := [],
    audits := (List.range 101).map histAudit, nextId := 200 }

/-- Witness for C9: with 101 entries, the kept entry created at tick 100 is
in the store and owned by user 7, and the dropped oldest entry (tick 0) is no
newer than it. -/
theorem c9_audit_queries_witness :
    (commandHistory dbHist 7).length ≤ 100
    ∧ (histAudit 100 ∈ dbHist.audits ∧ (histAudit 100).userId = 7)
    ∧ (histAudit 0).createdAt ≤ (histAudit 100).createdAt := by
  obtain ⟨h1, h2, h3, h4, h5, h6, h7, h8⟩ := c9_audit_queries dbHist 7
  exact ⟨h1, h3 (histAudit 100) (by decide),
    h4 (histAudit 100) (by decide) (histAudit 0) (by decide) (by decide)
      (by decide)⟩
